import Mathlib

/-!
# Reward Distribution Engine of `mina-indexer` — a shallow embedding

This file embeds the reward-distribution core of the `figment-networks/mina-indexer`
repository in Lean 4 and proves properties of it:

* `model/util/calculate.go` — `CalculateWeight`, `CalculateValidatorReward`,
  `CalculateDelegatorReward`.  These functions compute with Go `math/big.Float`
  values: binary floating point rounded to a mantissa precision (64 bits for
  floats created by `SetString`/`Quo`, 53 bits for floats created by
  `big.NewFloat`), and formatted by `String()` which renders the value with 10
  significant decimal digits (`Text('g', 10)`).  The embedding models a
  `big.Float` by its exact rational value and applies round-to-nearest-even
  at the appropriate mantissa precision after every operation, exactly as
  `math/big` does.

* `indexing/reward_calculation.go` — `RewardCalculation`, the distribution
  orchestrator.  Store lookups are modelled by an environment of responses;
  the run result is an `Outcome` (success, error, or runtime panic — the Go
  code can dereference a nil pointer) together with the list of successfully
  imported reward batches.

The value types `types.Amount` / `types.Percentage` and the weighting-pass
helpers (`model/types`, parts of `model/util`, `model/mapper`) are not part of
the provided sources; they are modelled from the specification where so noted.

A note on aliasing, taken directly from the Go sources: `types.Percentage`
embeds a `*big.Float` (the field access `validatorFee.Float` in
`calculate.go`), so `validatorFee.Quo(...)` is the promoted pointer method
`(*big.Float).Quo` and mutates the pointed-to float that the caller shares.
The embedding therefore threads the fee float's value through each call and
returns its new value.
-/

/-- Base-`b` logarithm with explicit fuel (structural recursion, so that the
kernel can evaluate it on literals): number of times `n` can be divided by `b`
before dropping below `b`. -/
def logFuel (b : ℕ) : ℕ → ℕ → ℕ
  | 0, _ => 0
  | f + 1, n => if n < b then 0 else logFuel b f (n / b) + 1

/-- `natLogB b n` = `⌊log_b n⌋` for `n ≥ 1`, `0` otherwise (fuel `n` suffices). -/
def natLogB (b n : ℕ) : ℕ := logFuel b n n

/-- `b ^ e` as a rational, for an integer (possibly negative) exponent. -/
def powz (b : ℕ) (e : ℤ) : ℚ :=
  if 0 ≤ e then ((b ^ e.toNat : ℕ) : ℚ) else ((b ^ (-e).toNat : ℕ) : ℚ)⁻¹

/-- `⌊log_b x⌋` for a positive rational `x`: the unique `k` with
`b^k ≤ x < b^(k+1)`.  Computed from the digit counts of numerator and
denominator and corrected by at most one. -/
def ilogb (b : ℕ) (x : ℚ) : ℤ :=
  let k0 : ℤ := (natLogB b x.num.natAbs : ℤ) - (natLogB b x.den : ℤ)
  if x < powz b k0 then k0 - 1
  else if x < powz b (k0 + 1) then k0
  else k0 + 1

/-- Round `x` to `d` significant base-`b` digits, round-to-nearest with ties to
an even mantissa.  With `b = 2` this is exactly the value semantics of a Go
`math/big.Float` of mantissa precision `d` (mode `ToNearestEven`, the default);
with `b = 10`, `d = 10` it is the value printed by `Float.Text('g', 10)`,
i.e. by `Float.String()`. -/
def roundSig (b d : ℕ) (x : ℚ) : ℚ :=
  if x = 0 then 0
  else
    let s : ℚ := if x < 0 then -1 else 1
    let ax : ℚ := if x < 0 then -x else x
    let k : ℤ := ilogb b ax
    let e : ℤ := k - ((d : ℤ) - 1)
    let m0 : ℚ := ax * powz b (-e)
    let m : ℤ := m0.num.fdiv (m0.den : ℤ)
    let fr : ℚ := m0 - (m : ℚ)
    let m2 : ℤ :=
      if fr > 1 / 2 then m + 1
      else if fr < 1 / 2 then m
      else if m % 2 = 0 then m else m + 1
    s * (m2 : ℚ) * powz b e

/-- Value of a `big.Float` of mantissa precision `p` holding the best
approximation of `x` (round to nearest, ties to even). -/
def rnd (p : ℕ) (x : ℚ) : ℚ := roundSig 2 p x

/-- Value denoted by `Float.String()` = `Float.Text('g', 10)`: the float's
value rounded to 10 significant decimal digits. -/
def g10 (x : ℚ) : ℚ := roundSig 10 10 x

/-- Modelled from the spec: `types.Amount` (`model/types`, not under `src/`) —
"an arbitrary-precision signed integer/decimal quantity … parse failure is a
distinct error, not a zero value".  In Go it embeds a `*big.Int`; `val = none`
models the nil/unparsable state (`a.Int == nil`, whose `String()` does not
parse as a number), `val = some q` a well-formed quantity whose `String()`
denotes exactly `q`. -/
structure Amount where
  val : Option ℚ
deriving DecidableEq, Repr

/-- Modelled from the spec: `types.NewAmount` parses the given decimal string
exactly (the argument here is the rational value the string denotes). -/
def NewAmount (q : ℚ) : Amount := ⟨some q⟩

/-- Modelled from the spec: `Amount.Add` — exact arbitrary-precision addition
(`big.Int` addition), absent operands propagate. -/
def Amount.Add (a b : Amount) : Amount :=
  ⟨match a.val, b.val with
   | some x, some y => some (x + y)
   | _, _ => none⟩

/-- Modelled from the spec: `Amount.Sub` — exact arbitrary-precision
subtraction, absent operands propagate. -/
def Amount.Sub (a b : Amount) : Amount :=
  ⟨match a.val, b.val with
   | some x, some y => some (x - y)
   | _, _ => none⟩

/-- Modelled from the spec: `Amount.Int64` — the integer value of the amount
(truncated toward zero, as `big.Int.Int64` of an integer amount), `0` for the
nil amount. -/
def Amount.Int64 (a : Amount) : ℤ :=
  match a.val with
  | none => 0
  | some q => q.num.tdiv (q.den : ℤ)

/-- Modelled from the spec: `types.Percentage` (`model/types`, not under
`src/`) — conventionally a 0–100 fraction; in Go it embeds a `*big.Float`
(field `Float`, mantissa precision 64 when built by `NewPercentage`).  `val`
is the current exact value of that float. -/
structure Percentage where
  val : ℚ
deriving DecidableEq, Repr

/-- Modelled from the spec: `types.NewPercentage` parses the given string with
`new(big.Float).SetString` — precision 64 (the argument is the exact value the
string denotes, the result the rounded float value). -/
def NewPercentage (q : ℚ) : Percentage := ⟨rnd 64 q⟩

/-- `util.CalculateWeight` (`model/util/calculate.go` lines 11–26).

```go
w, ok := new(big.Float).SetString(balance.String())         // prec 64
if !ok { return types.Percentage{}, errors.New("error with balance amount") }
if totalStakedAmount.Int64() == 0 {
    return types.Percentage{}, errors.New("total staked amount can not be zero") }
t, ok := new(big.Float).SetString(totalStakedAmount.String()) // prec 64
if !ok { return types.Percentage{}, errors.New("error with total staked amount") }
return types.NewPercentage(new(big.Float).Quo(w, t).String()), nil // Quo prec 64
```
-/
def CalculateWeight (balance totalStakedAmount : Amount) : Except String Percentage :=
  match balance.val with
  | none => .error "error with balance amount"
  | some bv =>
    let w := rnd 64 bv
    if totalStakedAmount.Int64 = 0 then .error "total staked amount can not be zero"
    else
      match totalStakedAmount.val with
      | none => .error "error with total staked amount"
      | some tv =>
        let t := rnd 64 tv
        .ok (NewPercentage (g10 (rnd 64 (w / t))))

/-- `util.CalculateValidatorReward` (`model/util/calculate.go` lines 29–42).

```go
vr, ok := new(big.Float).SetString(blockReward.String())    // prec 64
if !ok { return types.Amount{}, errors.New("error with block reward amount") }
validatorFee.Quo(validatorFee.Float, big.NewFloat(100))     // mutates the shared fee float (prec 64)
vr = vr.Mul(vr, validatorFee.Float)                         // prec 64
if !ok { ... }                                              // ok unchanged: branch unreachable
return types.NewAmount(vr.String()), nil
```

The second component of the result is the new value of the caller's fee
float, which the call overwrites through the shared pointer. -/
def CalculateValidatorReward (blockReward : Amount) (validatorFee : ℚ) :
    Except String Amount × ℚ :=
  match blockReward.val with
  | none => (.error "error with block reward amount", validatorFee)
  | some brv =>
    let vr := rnd 64 brv
    let fee2 := rnd 64 (validatorFee / 100)
    let vr2 := rnd 64 (vr * fee2)
    (.ok (NewAmount (g10 vr2)), fee2)

/-- `util.CalculateDelegatorReward` (`model/util/calculate.go` lines 45–61).

```go
br, ok := new(big.Float).SetString(blockReward.String())    // prec 64
if !ok { return types.Amount{}, errors.New("error with stake amount") }
remaining := big.NewFloat(0)                                // prec 53
remaining.Sub(big.NewFloat(100), validatorFee.Float)        // prec 53
validatorFee.Quo(remaining, big.NewFloat(100))              // mutates the shared fee float (prec 64)
br = br.Mul(br, validatorFee.Float)                         // prec 64
if !ok { ... }                                              // ok unchanged: branch unreachable
res := new(big.Float)
res.Mul(br, &weight)                                        // prec 64 (weight floats carry prec 64)
return types.NewAmount(res.String()), nil
```

`weight` is passed by value (`big.Float`, not a pointer), so it is never
mutated; the fee float is shared and overwritten with `(100 - fee) / 100`. -/
def CalculateDelegatorReward (weight : ℚ) (blockReward : Amount) (validatorFee : ℚ) :
    Except String Amount × ℚ :=
  match blockReward.val with
  | none => (.error "error with stake amount", validatorFee)
  | some brv =>
    let br := rnd 64 brv
    let remaining := rnd 53 (100 - validatorFee)
    let fee2 := rnd 64 (remaining / 100)
    let br2 := rnd 64 (br * fee2)
    let res := rnd 64 (br2 * weight)
    (.ok (NewAmount (g10 res)), fee2)

/-- Store-level error of a lookup or import: `store.ErrNotFound` or any other
error. -/
inductive StoreErr where
  | notFound
  | other (msg : String)
deriving DecidableEq, Repr

/-- An error returned by `RewardCalculation`: a store error propagated
unchanged, or an error message created by the function itself. -/
inductive RunErr where
  | store (e : StoreErr)
  | msg (s : String)
deriving DecidableEq, Repr

/-- Result of one distribution run: normal return `nil`, an error return, or a
Go runtime panic (nil-pointer dereference). -/
inductive Outcome where
  | ok
  | fail (e : RunErr)
  | panic
deriving DecidableEq, Repr

/-- `model.ValidatorEpoch` — the per-(epoch, validator) record; only the fee is
read by the run.  `validatorFee` is the current value of the fee `Percentage`'s
underlying `big.Float`. -/
structure ValidatorEpoch where
  validatorFee : ℚ
deriving DecidableEq, Repr

/-- The staking ledger handle: its id and total staked amount. -/
structure Ledger where
  id : ℤ
  stakedAmount : Amount
deriving DecidableEq, Repr

/-- One staking-ledger record as loaded from the store: owner key and staked
balance (its weight field is not yet populated). -/
structure LedgerRecord where
  publicKey : String
  balance : Amount
deriving DecidableEq, Repr

/-- A staking record after the weighting pass populated its weight field
(`r.Weight.Float`, a precision-64 float). -/
structure WeightedRecord where
  publicKey : String
  weight : ℚ
deriving DecidableEq, Repr

/-- `model.Block` — the fields read by the reward calculation.  The three
reward components are absent (`.Int == nil`) when upstream data has not
arrived. -/
structure Block where
  coinbase : Amount
  transactionsFees : Amount
  snarkJobsFees : Amount
  epoch : ℤ
  slot : ℤ
  supercharged : Bool
  creator : String
deriving DecidableEq, Repr

/-- Owner discriminator of a `model.BlockReward` record. -/
inductive RewardOwnerType where
  | validator
  | delegator
deriving DecidableEq, Repr

/-- `model.BlockReward` — an output reward record. -/
structure BlockReward where
  ownerAccount : String
  reward : Amount
  ownerType : RewardOwnerType
deriving DecidableEq, Repr

/-- The store responses and pluggable policies one `RewardCalculation` run
consumes.  Each lookup field holds exactly what the Go call returns: a value
and an error (`nil` modelled as `none`).  `FirstBlockOfEpoch` returns a block
pointer, `none` being the nil pointer (which the store returns alongside
`ErrNotFound`). -/
structure RunEnv where
  /-- `db.ValidatorsEpochs.GetValidatorEpochs(epoch, creator)`. -/
  validatorEpochs : List ValidatorEpoch × Option StoreErr
  /-- `db.Staking.FindLedger(epoch)`. -/
  ledger : Ledger × Option StoreErr
  /-- `db.Staking.LedgerRecords(ledger.ID)`. -/
  ledgerRecords : List LedgerRecord × Option StoreErr
  /-- `db.Blocks.FirstBlockOfEpoch(epoch)`. -/
  firstBlockOfEpoch : Option Block × Option StoreErr
  /-- `db.Rewards.Import(batch)` — `none` is success. -/
  importOutcome : List BlockReward → Option StoreErr
  /-- Modelled from the spec: `util.CalculateSuperchargedWeighting(block)`
  (`model/util`, not under `src/`) — a pluggable policy deriving a weighting
  factor from the block, may fail. -/
  superchargedWeighting : Except String ℚ
  /-- Modelled from the spec: `util.CalculateWeightsSupercharged(factor,
  records, firstSlotOfEpoch)` (`model/util`, not under `src/`) — a pluggable
  policy assigning every record its weight, may fail. -/
  weightsSupercharged : ℚ → List LedgerRecord → ℤ → Except String (List WeightedRecord)

/-- Modelled from the spec: `util.CalculateWeightsNonSupercharged(stakedAmount,
records)` (`model/util`, not under `src/`) — "each record's weight = its own
staked Amount divided by the ledger's total staked Amount", computed by the
`CalculateWeight` contract and written into each record's weight field; any
failure aborts the whole pass. -/
def CalculateWeightsNonSupercharged (stakedAmount : Amount) (records : List LedgerRecord) :
    Except String (List WeightedRecord) :=
  records.mapM fun r =>
    (CalculateWeight r.balance stakedAmount).map fun p => ⟨r.publicKey, p.val⟩

/-- Modelled from the spec: `mapper.DelegatorBlockRewards(records, block)`
(`model/mapper`, not under `src/`) — one fresh delegator reward record per
staking record, owned by the record's public key. -/
def DelegatorBlockRewards (records : List WeightedRecord) (_block : Block) :
    Except String (List BlockReward) :=
  .ok (records.map fun r => ⟨r.publicKey, ⟨none⟩, .delegator⟩)

/-- Modelled from the spec: `mapper.ValidatorBlockReward(block)`
(`model/mapper`, not under `src/`) — one fresh validator reward record owned by
the block creator. -/
def ValidatorBlockReward (block : Block) : Except String BlockReward :=
  .ok ⟨block.creator, ⟨none⟩, .validator⟩

/-- Go map semantics for `recordsMap[r.PublicKey] = *r.Weight.Float`: a later
entry for the same key overwrites an earlier one, so lookup returns the last
binding. -/
def recordsMapLookup (m : List (String × ℚ)) (k : String) : Option ℚ :=
  m.reverse.lookup k

/-- The delegator split loop of `RewardCalculation` (lines 85–97): for each
delegator reward record look up its weight (`record is not found` on a miss)
and compute the reward.  The fee float's value is threaded through because
every `CalculateDelegatorReward` call overwrites the shared float. -/
def delegatorRewardsLoop (recordsMap : List (String × ℚ)) (blockReward : Amount) :
    List BlockReward → ℚ → Except RunErr (List BlockReward × ℚ)
  | [], fee => .ok ([], fee)
  | dbr :: rest, fee =>
    match recordsMapLookup recordsMap dbr.ownerAccount with
    | none => .error (.msg ("record is not found for " ++ dbr.ownerAccount))
    | some weight =>
      match CalculateDelegatorReward weight blockReward fee with
      | (.error e, _) => .error (.msg e)
      | (.ok res, fee2) =>
        match delegatorRewardsLoop recordsMap blockReward rest fee2 with
        | .error e => .error e
        | .ok (rest2, fee3) => .ok ({ dbr with reward := res } :: rest2, fee3)

/-- `RewardCalculation` lines 76–116: build the weight map, build the delegator
reward records, run the split loop, import the delegator batch, then build,
compute and import the validator reward.  The second component collects the
successfully imported batches in order. -/
def runSplitAndImport (env : RunEnv) (block : Block) (blockReward : Amount)
    (creatorFee : ℚ) (wrecords : List WeightedRecord) :
    Outcome × List (List BlockReward) :=
  match DelegatorBlockRewards wrecords block with
  | .error e => (.fail (.msg e), [])
  | .ok dbrs =>
    match delegatorRewardsLoop (wrecords.map fun r => (r.publicKey, r.weight))
        blockReward dbrs creatorFee with
    | .error e => (.fail e, [])
    | .ok (dbrs2, fee2) =>
      match env.importOutcome dbrs2 with
      | some e => (.fail (.store e), [])
      | none =>
        match ValidatorBlockReward block with
        | .error e => (.fail (.msg e), [dbrs2])
        | .ok vbr =>
          match CalculateValidatorReward blockReward fee2 with
          | (.error e, _) => (.fail (.msg e), [dbrs2])
          | (.ok vrew, _) =>
            let vbr2 := { vbr with reward := vrew }
            match env.importOutcome [vbr2] with
            | some e => (.fail (.store e), [dbrs2])
            | none => (.ok, [dbrs2, [vbr2]])

/-- `RewardCalculation` lines 60–74: the weighting pass, a clean branch on
`block.Supercharged`. -/
def runWeightPass (env : RunEnv) (block : Block) (blockReward : Amount)
    (creatorFee : ℚ) (ledger : Ledger) (records : List LedgerRecord)
    (firstSlotOfEpoch : ℤ) : Outcome × List (List BlockReward) :=
  match
    if !block.supercharged then
      CalculateWeightsNonSupercharged ledger.stakedAmount records
    else
      match env.superchargedWeighting with
      | .error e => .error e
      | .ok scw => env.weightsSupercharged scw records firstSlotOfEpoch
  with
  | .error e => (.fail (.msg e), [])
  | .ok wrecords => runSplitAndImport env block blockReward creatorFee wrecords

/-- `RewardCalculation` lines 44–58: load the ledger records (`ErrNotFound` is
swallowed, leaving the nil record set), then fetch the epoch's first block.
A non-`ErrNotFound` error propagates; with no error a nil block pointer is the
hard error `first block of epoch is not found`; but when the store reports
`ErrNotFound` the code falls through and the unconditional
`firstSlotOfEpoch := firstBlockOfEpoch.Slot` dereferences the nil pointer —
a runtime panic. -/
def runAfterLedger (env : RunEnv) (block : Block) (blockReward : Amount)
    (creatorFee : ℚ) (ledger : Ledger) : Outcome × List (List BlockReward) :=
  let (records, recErr) := env.ledgerRecords
  match recErr with
  | some (.other s) => (.fail (.store (.other s)), [])
  | _ =>
    let (fbPtr, fbErr) := env.firstBlockOfEpoch
    match fbErr with
    | some (.other s) => (.fail (.store (.other s)), [])
    | some .notFound =>
      match fbPtr with
      | none => (.panic, [])
      | some fb => runWeightPass env block blockReward creatorFee ledger records fb.slot
    | none =>
      match fbPtr with
      | none => (.fail (.msg "first block of epoch is not found"), [])
      | some fb => runWeightPass env block blockReward creatorFee ledger records fb.slot

/-- `indexing.RewardCalculation` (`indexing/reward_calculation.go`).

Lines 18–20: success-no-op when any reward component is absent.
Lines 22–32: validator-epoch lookup — a non-`ErrNotFound` store error
propagates, an empty result is the hard error `validator fee for epoch not
found`; the residual `if err != nil` then propagates `ErrNotFound` if the list
was nonempty.  Lines 33–34: block reward = Coinbase + TransactionsFees −
SnarkJobsFees.  Lines 36–42: ledger lookup — `ErrNotFound` is a success-no-op,
other errors propagate.  The rest is `runAfterLedger`. -/
def RewardCalculation (env : RunEnv) (block : Block) : Outcome × List (List BlockReward) :=
  if block.coinbase.val = none ∨ block.transactionsFees.val = none ∨
      block.snarkJobsFees.val = none then
    (.ok, [])
  else
    let (validatorEpochs, veErr) := env.validatorEpochs
    match veErr with
    | some (.other s) => (.fail (.store (.other s)), [])
    | _ =>
      match validatorEpochs with
      | [] => (.fail (.msg "validator fee for epoch not found"), [])
      | ve0 :: _ =>
        let creatorFee := ve0.validatorFee
        match veErr with
        | some e => (.fail (.store e), [])
        | none =>
          let blockReward := (block.coinbase.Add block.transactionsFees).Sub block.snarkJobsFees
          let (ledger, ledErr) := env.ledger
          match ledErr with
          | some (.other s) => (.fail (.store (.other s)), [])
          | some .notFound => (.ok, [])
          | none => runAfterLedger env block blockReward creatorFee ledger

deriving instance DecidableEq for Except

/-- The spec's concrete scenario block: blockReward components summing to 100
(Coinbase 100, TransactionsFees 0, SnarkJobsFees 0), not supercharged,
created by validator `V`. -/
def blkC : Block := ⟨⟨some 100⟩, ⟨some 0⟩, ⟨some 0⟩, 5, 9, false, "V"⟩

/-- The spec's concrete scenario store: validator fee 10 for the epoch, a
staking ledger with total staked 1000 and records A = 600 and B = 400, a
present first block of the epoch, and imports that succeed. -/
def envC : RunEnv :=
  { validatorEpochs := ([⟨10⟩], none)
    ledger := (⟨1, ⟨some 1000⟩⟩, none)
    ledgerRecords := ([⟨"A", ⟨some 600⟩⟩, ⟨"B", ⟨some 400⟩⟩], none)
    firstBlockOfEpoch := (some blkC, none)
    importOutcome := fun _ => none
    superchargedWeighting := .error "unused"
    weightsSupercharged := fun _ _ _ => .error "unused" }

/-- A store where the delegator-batch import (two records) succeeds but the
validator-batch import (one record) fails. -/
def envC4 : RunEnv :=
  { envC with
    importOutcome := fun l => if l.length == 1 then some (.other "import failed") else none }

/-- A scenario store whose staking-ledger lookup reports `NotFound`. -/
def envC6a : RunEnv := { envC with ledger := (⟨1, ⟨some 1000⟩⟩, some .notFound) }

/-- A scenario store whose validator-fee lookup reports `NotFound` with an
empty result. -/
def envC6b : RunEnv := { envC with validatorEpochs := ([], some .notFound) }

/-- A scenario store whose ledger-records lookup reports `NotFound` (with the
nil record list). -/
def envC10 : RunEnv := { envC with ledgerRecords := ([], some .notFound) }

/-- The persistence shapes a run can end in: nothing imported; exactly the
delegator batch imported and the run failed afterwards; or both the delegator
batch and the validator batch imported and the run succeeded. -/
def WritesShape (r : Outcome × List (List BlockReward)) : Prop :=
  r.2 = [] ∨ (∃ d, r.2 = [d] ∧ r.1 ≠ Outcome.ok) ∨
    (∃ d v, r.2 = [d, [v]] ∧ r.1 = Outcome.ok)

lemma runSplitAndImport_shape (env : RunEnv) (block : Block) (br : Amount) (fee : ℚ)
    (ws : List WeightedRecord) : WritesShape (runSplitAndImport env block br fee ws) := by
  unfold runSplitAndImport
  simp only [DelegatorBlockRewards, ValidatorBlockReward]
  split
  · exact Or.inl rfl
  · split
    · exact Or.inl rfl
    · split
      · exact Or.inr (Or.inl ⟨_, rfl, by simp⟩)
      · split
        · exact Or.inr (Or.inl ⟨_, rfl, by simp⟩)
        · exact Or.inr (Or.inr ⟨_, _, rfl, rfl⟩)

lemma runWeightPass_shape (env : RunEnv) (block : Block) (br : Amount) (fee : ℚ)
    (ledger : Ledger) (records : List LedgerRecord) (slot : ℤ) :
    WritesShape (runWeightPass env block br fee ledger records slot) := by
  unfold runWeightPass
  split
  · exact Or.inl rfl
  · exact runSplitAndImport_shape ..

lemma runAfterLedger_shape (env : RunEnv) (block : Block) (br : Amount) (fee : ℚ)
    (ledger : Ledger) : WritesShape (runAfterLedger env block br fee ledger) := by
  unfold runAfterLedger
  rcases hlr : env.ledgerRecords with ⟨records, recErr⟩
  simp only [hlr]
  split
  · exact Or.inl rfl
  · rcases hfb : env.firstBlockOfEpoch with ⟨fbPtr, fbErr⟩
    simp only [hfb]
    split
    · exact Or.inl rfl
    · split
      · exact Or.inl rfl
      · exact runWeightPass_shape ..
    · split
      · exact Or.inl rfl
      · exact runWeightPass_shape ..

set_option maxRecDepth 100000 in
/-- C1: refuted on the code.  In the spec's concrete scenario (total staked
1000, records A = 600 and B = 400, blockReward = 100, fee = 10) the run is
expected to yield validatorReward 10, delegatorReward(A) 54 and
delegatorReward(B) 36, summing to the block reward 100.  The code instead
yields A = 54, B = 991/25 (= 39.64) and validator = 991/1000 (= 0.991),
because every `CalculateDelegatorReward` / `CalculateValidatorReward` call
overwrites the shared fee float; the rewards sum to 94.631 ≠ 100, far outside
rounding tolerance. -/
theorem c1_scenario_run :
    RewardCalculation envC blkC =
      (.ok,
        [[⟨"A", ⟨some 54⟩, .delegator⟩, ⟨"B", ⟨some (991 / 25)⟩, .delegator⟩],
         [⟨"V", ⟨some (991 / 1000)⟩, .validator⟩]]) ∧
    (54 + 991 / 25 + 991 / 1000 : ℚ) ≠ 100 := by
  constructor
  · with_unfolding_all decide
  · norm_num

set_option maxRecDepth 100000 in
/-- C2: refuted on the code.  `CalculateValidatorReward` and
`CalculateDelegatorReward` are not pure over immutable inputs: each call
overwrites the fee `Percentage`'s shared underlying `big.Float` (with
`fee/100` resp. `(100-fee)/100`).  Calling `CalculateValidatorReward` twice
with the same fee argument (block reward 100, fee initially 10) returns 10 the
first time and 1/10 the second; calling `CalculateDelegatorReward` twice
(weight 1/2) returns 45 then 991/20; and after the first validator call the
fee float no longer holds 10. -/
theorem c2_not_pure :
    (CalculateValidatorReward ⟨some 100⟩ 10).1 = .ok ⟨some 10⟩ ∧
    (CalculateValidatorReward ⟨some 100⟩ ((CalculateValidatorReward ⟨some 100⟩ 10).2)).1 =
      .ok ⟨some (1 / 10)⟩ ∧
    (CalculateValidatorReward ⟨some 100⟩ 10).2 ≠ 10 ∧
    (CalculateDelegatorReward (1 / 2) ⟨some 100⟩ 10).1 = .ok ⟨some 45⟩ ∧
    (CalculateDelegatorReward (1 / 2) ⟨some 100⟩
        ((CalculateDelegatorReward (1 / 2) ⟨some 100⟩ 10).2)).1 = .ok ⟨some (991 / 20)⟩ := by
  with_unfolding_all decide

set_option maxRecDepth 100000 in
/-- C3: refuted on the code.  When the first-block-of-epoch lookup reports
`ErrNotFound`, the error is swallowed but the nil block pointer is then
dereferenced unconditionally (`firstSlotOfEpoch := firstBlockOfEpoch.Slot`),
so the run panics — it does not complete for a non-supercharged block, and for
a supercharged block the panic preempts the intended hard error.  All other
inputs are present (spec's scenario store). -/
theorem c3_first_block_notfound_panics :
    RewardCalculation { envC with firstBlockOfEpoch := (none, some .notFound) } blkC =
      (.panic, []) ∧
    RewardCalculation { envC with firstBlockOfEpoch := (none, some .notFound) }
      { blkC with supercharged := true } = (.panic, []) := by
  with_unfolding_all decide

set_option maxRecDepth 100000 in
/-- C4: counterexample.  A run in which the delegator import succeeds and the
validator import fails ends in a hard error with the delegator batch already
persisted — so it is not true that every run ending in a hard error has
persisted nothing, nor that import is invoked only after the validator-reward
computation has succeeded (that computation happens after the first import). -/
theorem c4_counterexample :
    (RewardCalculation envC4 blkC).1 = .fail (.store (.other "import failed")) ∧
    (RewardCalculation envC4 blkC).2 =
      [[⟨"A", ⟨some 54⟩, .delegator⟩, ⟨"B", ⟨some (991 / 25)⟩, .delegator⟩]] := by
  with_unfolding_all decide

/-- C4 (amended): the delegator batch is imported only after the weight pass
and every delegator split have succeeded, and the validator reward is computed
and imported after that first import; consequently every run ends in one of
three persistence shapes — nothing imported, exactly the fully-computed
delegator batch imported with the run failing afterwards, or both batches
imported with the run succeeding. -/
theorem c4_amended (env : RunEnv) (block : Block) :
    WritesShape (RewardCalculation env block) := by
  unfold RewardCalculation
  split
  · exact Or.inl rfl
  · rcases hve : env.validatorEpochs with ⟨ves, veErr⟩
    simp only [hve]
    split
    · exact Or.inl rfl
    · split
      · exact Or.inl rfl
      · split
        · exact Or.inl rfl
        · rcases hld : env.ledger with ⟨ledger, ledErr⟩
          simp only [hld]
          split
          · exact Or.inl rfl
          · exact Or.inl rfl
          · exact runAfterLedger_shape ..

/-- C5: confirmed.  If any of Coinbase, TransactionsFees or SnarkJobsFees is
absent (`.Int == nil`), `RewardCalculation` returns success immediately with
no store writes. -/
theorem c5_guard (env : RunEnv) (block : Block)
    (h : block.coinbase.val = none ∨ block.transactionsFees.val = none ∨
      block.snarkJobsFees.val = none) :
    RewardCalculation env block = (.ok, []) := by
  unfold RewardCalculation
  rw [if_pos h]

/-- C5 witness: the guard fires on the scenario block with its coinbase
removed. -/
theorem c5_guard_witness :
    ({ blkC with coinbase := ⟨none⟩ } : Block).coinbase.val = none ∧
    RewardCalculation envC { blkC with coinbase := ⟨none⟩ } = (.ok, []) :=
  ⟨rfl, c5_guard envC { blkC with coinbase := ⟨none⟩ } (Or.inl rfl)⟩

/-- C6: confirmed.  With all reward components present: a `NotFound` staking
ledger makes the run return success with no writes, while a `NotFound` (or
empty) validator-fee lookup is the hard error
`validator fee for epoch not found`. -/
theorem c6_ledger_vs_fee (env : RunEnv) (block : Block) (ve : ValidatorEpoch)
    (l : Ledger) (veErr : Option StoreErr)
    (h1 : block.coinbase.val ≠ none) (h2 : block.transactionsFees.val ≠ none)
    (h3 : block.snarkJobsFees.val ≠ none) :
    (env.validatorEpochs = ([ve], none) → env.ledger = (l, some .notFound) →
      RewardCalculation env block = (.ok, [])) ∧
    ((veErr = none ∨ veErr = some .notFound) → env.validatorEpochs = ([], veErr) →
      RewardCalculation env block =
        (.fail (.msg "validator fee for epoch not found"), [])) := by
  constructor
  · intro hve hld
    unfold RewardCalculation
    rw [if_neg (by simp [h1, h2, h3])]
    simp only [hve, hld]
  · intro hOr hve
    unfold RewardCalculation
    rw [if_neg (by simp [h1, h2, h3])]
    rcases hOr with rfl | rfl <;> simp only [hve]

/-- C6 witness: both branches at the concrete scenario block. -/
theorem c6_ledger_vs_fee_witness :
    RewardCalculation envC6a blkC = (.ok, []) ∧
    RewardCalculation envC6b blkC =
      (.fail (.msg "validator fee for epoch not found"), []) :=
  ⟨(c6_ledger_vs_fee envC6a blkC ⟨10⟩ ⟨1, ⟨some 1000⟩⟩ (some .notFound)
      (by decide) (by decide) (by decide)).1 rfl rfl,
   (c6_ledger_vs_fee envC6b blkC ⟨10⟩ ⟨1, ⟨some 1000⟩⟩ (some .notFound)
      (by decide) (by decide) (by decide)).2 (Or.inr rfl) rfl⟩

/-- C7: confirmed.  For an integer-valued total staked amount,
`CalculateWeight` fails exactly when the balance is unparsable or the total
staked amount is zero (and an error is returned for every balance when the
total is zero, since the balance-parse error fires first). -/
theorem c7_weight_error_iff (balance : Amount) (t : ℤ) :
    (∃ e, CalculateWeight balance ⟨some (t : ℚ)⟩ = .error e) ↔
      (balance.val = none ∨ t = 0) := by
  have hint : (Amount.Int64 ⟨some (t : ℚ)⟩) = t := by
    simp [Amount.Int64, Rat.num_intCast, Rat.den_intCast]
  rcases hb : balance.val with _ | bv
  · exact ⟨fun _ => Or.inl rfl,
      fun _ => ⟨"error with balance amount", by simp [CalculateWeight, hb]⟩⟩
  · constructor
    · rintro ⟨e, he⟩
      by_contra hcon
      push_neg at hcon
      obtain ⟨-, ht⟩ := hcon
      simp [CalculateWeight, hb, hint, ht] at he
    · rintro (hn | rfl)
      · exact absurd hn (by simp)
      · exact ⟨"total staked amount can not be zero",
          by simp [CalculateWeight, hb, Amount.Int64]⟩

set_option maxRecDepth 100000 in
/-- C8: counterexample.  `CalculateWeight` does not return the exact quotient:
for balance 1 and total staked 3 the stored weight is the 64-bit-mantissa
float nearest to the 10-significant-digit decimal `0.3333333333`, which
differs from `1/3` — the computation passes through fixed 64-bit-mantissa
binary floating point (about 19 significant decimal digits, not ≥ 50) and a
10-digit decimal string. -/
theorem c8_counterexample :
    CalculateWeight ⟨some 1⟩ ⟨some 3⟩ ≠ .ok ⟨1 / 3⟩ ∧
    (CalculateWeight ⟨some 1⟩ ⟨some 3⟩).isOk = true := by
  with_unfolding_all decide

/-- C8 (amended): for every parsable balance and total staked amount with a
nonzero integer part, `CalculateWeight` succeeds and returns the quotient of
the two 64-bit-mantissa roundings of its inputs, rounded to 64-bit mantissa,
then to a 10-significant-digit decimal string, then re-parsed at 64-bit
mantissa — a fixed-precision value, not the exact quotient. -/
theorem c8_amended (balance total : Amount) (b tv : ℚ)
    (hb : balance.val = some b) (ht : total.val = some tv)
    (h64 : total.Int64 ≠ 0) :
    CalculateWeight balance total =
      .ok ⟨rnd 64 (g10 (rnd 64 (rnd 64 b / rnd 64 tv)))⟩ := by
  simp [CalculateWeight, NewPercentage, hb, ht, h64]

/-- C8 witness: the amended pipeline at balance 600, total 1000 (the stored
weight is the 64-bit rounding of 3/5). -/
theorem c8_amended_witness :
    (Amount.val ⟨some 600⟩ = some 600) ∧ (Amount.Int64 ⟨some 1000⟩ ≠ 0) ∧
    CalculateWeight ⟨some 600⟩ ⟨some 1000⟩ =
      .ok ⟨rnd 64 (g10 (rnd 64 (rnd 64 600 / rnd 64 1000)))⟩ :=
  ⟨rfl, by with_unfolding_all decide,
    c8_amended ⟨some 600⟩ ⟨some 1000⟩ 600 1000 rfl rfl
      (by with_unfolding_all decide)⟩

/-- C9: confirmed.  `CalculateValidatorReward` and `CalculateDelegatorReward`
return an error exactly when the block reward is unparsable, for every fee and
weight (their residual `!ok` branches are unreachable, so a parsable block
reward always succeeds). -/
theorem c9_split_error_iff (blockReward : Amount) (fee w : ℚ) :
    ((∃ e, (CalculateValidatorReward blockReward fee).1 = .error e) ↔
      blockReward.val = none) ∧
    ((∃ e, (CalculateDelegatorReward w blockReward fee).1 = .error e) ↔
      blockReward.val = none) := by
  rcases hb : blockReward.val with _ | brv <;>
    constructor <;>
      simp [CalculateValidatorReward, CalculateDelegatorReward, hb]

set_option maxRecDepth 100000 in
/-- C10: confirmed.  When the staking ledger is found but the records lookup
reports `NotFound`, the run continues with the nil record set exactly as if
the store had returned an empty record list without error — it neither
returns the missing-ledger success-no-op nor fails: on the scenario store it
proceeds through the weight and split passes, imports the empty delegator
batch and the validator reward, and succeeds with writes performed. -/
theorem c10_records_notfound :
    (∀ (env : RunEnv) (block : Block) (br : Amount) (fee : ℚ) (l : Ledger),
        runAfterLedger { env with ledgerRecords := ([], some .notFound) } block br fee l =
          runAfterLedger { env with ledgerRecords := ([], none) } block br fee l) ∧
    RewardCalculation envC10 blkC = (.ok, [[], [⟨"V", ⟨some 10⟩, .validator⟩]]) := by
  constructor
  · intro env block br fee l
    rfl
  · with_unfolding_all decide
